import Mathlib

/-!
Shallow embedding of the feature-extraction stage in `modules/training/extract.py`
(functions `FeatureInput.coarse_f0`, `FeatureInput.go`, `extract_f0`, `extract_feature`).

Modelling conventions:
* The file system is a pair of lists: existing directory paths and existing file
  paths.  `os.path.exists` is membership, `os.makedirs(..., exist_ok=True)` appends.
* All observable effects of a run are recorded in a trace of `Event`s
  (directory creation, each invocation of the external pitch tracker or the
  embedder model, each `np.save`, each `print`, each worker spawn, the embedder
  load).  A function that catches all exceptions is a total function into such
  traces; exceptions raised by the external numerical libraries are modelled by
  oracles returning `Except`.
* `compute_f0` (librosa + parselmouth/pyworld) and the embedder inference
  (fairseq / transformers) are external collaborators, modelled as oracle
  parameters mapping an input path to either a result array or a raised
  exception.  Float arrays are modelled as lists of reals; an embedder output
  entry that is NaN is modelled as `none`.
* The worker processes / GPU executor threads of a run are executed sequentially
  in worker order (they operate on disjoint slices of the work list); the fan-out
  itself is recorded in `spawnP`/`spawnG` events.
-/

namespace RVC

noncomputable section

/-- Python substring test `pat in s`. -/
def strIn (pat s : String) : Bool := decide (pat.data <:+: s.data)

/-- Python `s.endswith suff`. -/
def strEndsWith (s suff : String) : Bool := decide (suff.data <:+ s.data)

/-- `os.path.join a b` for a relative second component (POSIX separator). -/
def pjoin (a b : String) : String := a ++ "/" ++ b

/-- `os.path.dirname`: everything before the last slash; `""` if there is no slash. -/
def dirname (p : String) : String :=
  String.mk (((p.data.reverse.dropWhile (fun c => c != '/')).drop 1).reverse)

/-- Python `str.replace pat rep` (all non-overlapping occurrences, left to right),
on character lists; the counter skips the characters already consumed by a match. -/
def replaceAllAux (pat rep : List Char) : List Char → ℕ → List Char
  | [], _ => []
  | _ :: rest, k + 1 => replaceAllAux pat rep rest k
  | c :: rest, 0 =>
    if pat ≠ [] ∧ pat <+: c :: rest then rep ++ replaceAllAux pat rep rest (pat.length - 1)
    else c :: replaceAllAux pat rep rest 0

/-- Python `s.replace pat rep`. -/
def strReplace (s pat rep : String) : String := String.mk (replaceAllAux pat.data rep.data s.data 0)

/-- The file-system state visible to the script: existing directories and files. -/
structure FS where
  dirs : List String
  files : List String

/-- `os.path.exists` on a directory path. -/
def fsHasDir (fs : FS) (d : String) : Bool := decide (d ∈ fs.dirs)

/-- `os.path.exists` on a file path. -/
def fsHasFile (fs : FS) (p : String) : Bool := decide (p ∈ fs.files)

/-- `os.makedirs(d, exist_ok=True)`. -/
def mkdirFS (fs : FS) (d : String) : FS := ⟨fs.dirs ++ [d], fs.files⟩

/-- Effect of `np.save` on the file-system state. -/
def addFile (fs : FS) (p : String) : FS := ⟨fs.dirs, fs.files ++ [p]⟩

/-- `np.save(path, arr)` appends ".npy" when `path` does not already end with it. -/
def savedPath (p : String) : String := if strEndsWith p ".npy" then p else p ++ ".npy"

/-- Contents written by `np.save` in this module. -/
inductive Content where
  | f0raw (v : List ℝ)
  | f0coarse (v : List ℤ)
  | feature (v : List (Option ℝ))

/-- A work item of `extract_f0`: `[filepath, opt_filepath_f0, opt_filepath_f0_nsf]`. -/
abbrev F0Item := String × String × String

/-- Observable effects of a run. -/
inductive Event where
  | mkdir (d : String)
  | callF0 (inp mthd : String)
  | callEmbed (inp : String) (dev : ℕ)
  | write (p : String) (c : Content)
  | print (msg : String)
  | spawnP (batch : List F0Item)
  | spawnG (batch : List String) (dev : ℕ)
  | loadModel (name : String)

/-- State threaded through a worker loop: the file system plus the effect trace. -/
structure GoState where
  fs : FS
  trace : List Event

/-- `FeatureInput.f0_bin`. -/
def f0_bin : ℕ := 256

/-- `FeatureInput.f0_min`. -/
def f0_min : ℝ := 50

/-- `FeatureInput.f0_max`. -/
def f0_max : ℝ := 1100

/-- `FeatureInput.f0_mel_min = 1127 * np.log(1 + f0_min / 700)`. -/
def f0_mel_min : ℝ := 1127 * Real.log (1 + f0_min / 700)

/-- `FeatureInput.f0_mel_max = 1127 * np.log(1 + f0_max / 700)`. -/
def f0_mel_max : ℝ := 1127 * Real.log (1 + f0_max / 700)

/-- numpy `np.rint`: round to nearest integer, ties to the even integer. -/
def rint (x : ℝ) : ℤ :=
  if x - ⌊x⌋ = 1 / 2 then (if 2 ∣ ⌊x⌋ then ⌊x⌋ else ⌊x⌋ + 1) else round x

/-- `f0_mel = 1127 * np.log(1 + f0 / 700)`, entrywise. -/
def melScale (x : ℝ) : ℝ := 1127 * Real.log (1 + x / 700)

/-- `f0_mel[f0_mel > 0] = (f0_mel[f0_mel > 0] - f0_mel_min) * (f0_bin - 2) /
(f0_mel_max - f0_mel_min) + 1`, entrywise. -/
def melRescale (m : ℝ) : ℝ :=
  if 0 < m then (m - f0_mel_min) * ((f0_bin : ℝ) - 2) / (f0_mel_max - f0_mel_min) + 1 else m

/-- `f0_mel[f0_mel <= 1] = 1`, entrywise. -/
def clampLow (v : ℝ) : ℝ := if v ≤ 1 then 1 else v

/-- `f0_mel[f0_mel > f0_bin - 1] = f0_bin - 1`, entrywise. -/
def clampHigh (v : ℝ) : ℝ := if ((f0_bin : ℝ) - 1) < v then ((f0_bin : ℝ) - 1) else v

/-- One entry of `FeatureInput.coarse_f0`: mel-scale, rescale the positive mel
values, clamp below at 1, clamp above at `f0_bin - 1`, then `np.rint`. -/
def coarseF0Entry (x : ℝ) : ℤ := rint (clampHigh (clampLow (melRescale (melScale x))))

/-- `FeatureInput.coarse_f0`, entrywise on the array. -/
def coarseF0 (f0 : List ℝ) : List ℤ := f0.map coarseF0Entry

/-- External collaborator `FeatureInput.compute_f0` (librosa load + pitch tracker):
given an input path and the f0 method, either a pitch contour or a raised exception. -/
abbrev F0Oracle := String → String → Except String (List ℝ)

/-- External collaborator for `extract_feature`'s per-file work (readwave + embedder
inference): either a feature array (NaN entries as `none`) or a raised exception. -/
abbrev EmbedOracle := String → Except String (List (Option ℝ))

/-- The message printed by the bare `except` in `FeatureInput.go`. -/
def f0FailMsg (idx : ℕ) (inp tb : String) : String :=
  "f0 failed " ++ toString idx ++ ": " ++ inp ++ " " ++ tb

/-- The message printed by `except Exception` in `extract_feature`'s `process`. -/
def embedFailMsg (e file : String) : String := "Error: " ++ e ++ " " ++ file

/-- The message printed when a computed feature array contains NaN. -/
def nanMsg (file : String) : String := file ++ " contains nan"

/-- One iteration of the loop body of `FeatureInput.go` (`idx` from `enumerate`):
skip when both outputs exist, otherwise compute the pitch and save the raw contour
at `opt_path2` then its coarse quantization at `opt_path1`; a raised exception is
caught and printed. -/
def goItem (oracle : F0Oracle) (f0_method : String) (idx : ℕ) (st : GoState)
    (item : F0Item) : GoState :=
  if fsHasFile st.fs (item.2.1 ++ ".npy") && fsHasFile st.fs (item.2.2 ++ ".npy") then st
  else
    match oracle item.1 f0_method with
    | Except.error e =>
        ⟨st.fs, st.trace ++ [Event.callF0 item.1 f0_method, Event.print (f0FailMsg idx item.1 e)]⟩
    | Except.ok featur_pit =>
        ⟨addFile (addFile st.fs (savedPath item.2.2)) (savedPath item.2.1),
         st.trace ++ [Event.callF0 item.1 f0_method,
                      Event.write (savedPath item.2.2) (Content.f0raw featur_pit),
                      Event.write (savedPath item.2.1) (Content.f0coarse (coarseF0 featur_pit))]⟩

/-- The loop of `FeatureInput.go` over `enumerate(paths)`. -/
def goAux (oracle : F0Oracle) (f0_method : String) : ℕ → GoState → List F0Item → GoState
  | _, st, [] => st
  | idx, st, item :: rest =>
      goAux oracle f0_method (idx + 1) (goItem oracle f0_method idx st item) rest

/-- `FeatureInput.go` (the `len(paths) != 0` guard is redundant over the empty loop). -/
def go (oracle : F0Oracle) (f0_method : String) (st : GoState) (paths : List F0Item) : GoState :=
  goAux oracle f0_method 0 st paths

/-- A listing of `training_dir/1_16k_wavs`: top-level files and one-level
subdirectories with their files, in sorted order as produced by the two
`sorted(os.listdir(...))` loops. -/
inductive DirEntry where
  | file (name : String)
  | subdir (name : String) (files : List String)

/-- The `names` list built by `extract_f0`: top-level entries verbatim, files of a
subdirectory joined to it after dropping those containing "spec". -/
def enumNames (entries : List DirEntry) : List String :=
  entries.flatMap fun e =>
    match e with
    | DirEntry.file n => [n]
    | DirEntry.subdir d fsList => (fsList.filter (fun f => !strIn "spec" f)).map (fun f => pjoin d f)

/-- The `paths` list of `extract_f0`: for each enumerated name whose full input
path does not contain "spec", the input path under `1_16k_wavs` and the two
output paths at the same relative name under `2a_f0` and `2b_f0nsf`. -/
def f0Paths (training_dir : String) (entries : List DirEntry) : List F0Item :=
  (enumNames entries).filterMap fun name =>
    if strIn "spec" (pjoin (pjoin training_dir "1_16k_wavs") name) then none
    else some (pjoin (pjoin training_dir "1_16k_wavs") name,
               pjoin (pjoin training_dir "2a_f0") name,
               pjoin (pjoin training_dir "2b_f0nsf") name)

/-- The deduplicated set of parent-directory pairs of the output paths
(`set(...)` in the source, modelled as first-occurrence deduplication). -/
def f0ParentDirs (training_dir : String) (entries : List DirEntry) : List (String × String) :=
  ((f0Paths training_dir entries).map (fun p => (dirname p.2.1, dirname p.2.2))).dedup

/-- Round-robin pick: take an element when the countdown hits 0, then restart the
countdown at `gap`, after an initial countdown of `k`. -/
def everyNthAux {α : Type u} (gap : ℕ) : List α → ℕ → List α
  | [], _ => []
  | x :: xs, 0 => x :: everyNthAux gap xs gap
  | _ :: xs, k + 1 => everyNthAux gap xs k

/-- Python extended slice `l[i::n]` (for `n ≥ 1`): elements at indices
`i, i+n, i+2n, ...`. -/
def pySlice {α : Type u} (l : List α) (i n : ℕ) : List α := everyNthAux (n - 1) l i

/-- The batches `[l[0::n], l[1::n], ..., l[n-1::n]]` handed to the `n` workers. -/
def pyBatches {α : Type u} (l : List α) (n : ℕ) : List (List α) :=
  (List.range n).map fun i => pySlice l i n

/-- The early-return guard of `extract_f0`: both output directories exist. -/
def guardF0 (fs : FS) (training_dir : String) : Bool :=
  fsHasDir fs (pjoin training_dir "2a_f0") && fsHasDir fs (pjoin training_dir "2b_f0nsf")

/-- Directory-creation events of `extract_f0`: the two output roots, then the
mirrored parent directories of every output path. -/
def f0MkdirTrace (training_dir : String) (entries : List DirEntry) : List Event :=
  [Event.mkdir (pjoin training_dir "2a_f0"), Event.mkdir (pjoin training_dir "2b_f0nsf")]
    ++ (f0ParentDirs training_dir entries).flatMap (fun d => [Event.mkdir d.1, Event.mkdir d.2])

/-- Worker-spawn events of `extract_f0`: process `i` receives `paths[i::num_processes]`. -/
def f0SpawnTrace (training_dir : String) (entries : List DirEntry) (num_processes : ℕ) :
    List Event :=
  (pyBatches (f0Paths training_dir entries) num_processes).map Event.spawnP

/-- `extract_f0`: return immediately when both output directories exist; otherwise
create the output directories, build the mirrored work list, create every parent
directory, spawn `num_processes` workers on the slices `paths[i::num_processes]`,
and run them (sequentially in the model). -/
def extract_f0 (oracle : F0Oracle) (fs : FS) (entries : List DirEntry)
    (training_dir : String) (num_processes : ℕ) (f0_method : String) : GoState :=
  if guardF0 fs training_dir then ⟨fs, []⟩
  else
    let fs1 := mkdirFS (mkdirFS fs (pjoin training_dir "2a_f0")) (pjoin training_dir "2b_f0nsf")
    let paths := f0Paths training_dir entries
    let fs2 := (f0ParentDirs training_dir entries).foldl
      (fun a d => mkdirFS (mkdirFS a d.1) d.2) fs1
    let st0 : GoState :=
      ⟨fs2, f0MkdirTrace training_dir entries ++ f0SpawnTrace training_dir entries num_processes⟩
    (List.range num_processes).foldl
      (fun st i => go oracle f0_method st (pySlice paths i num_processes)) st0

/-- The keys of `load_emb_dic` in `extract_feature`. -/
def supportedEmbedders : List String :=
  ["hubert_base", "hubert_base768", "contentvec", "contentvec768",
   "distilhubert", "distilhubert768"]

/-- The `todo` list of `extract_feature`: only files inside subdirectories of
`1_16k_wavs`, joined to their subdirectory (top-level files are ignored, and no
"spec" filter is applied). -/
def enumTodo (entries : List DirEntry) : List String :=
  entries.flatMap fun e =>
    match e with
    | DirEntry.file _ => []
    | DirEntry.subdir d fsList => fsList.map (fun f => pjoin d f)

/-- `np.isnan(feats).sum() > 0`: the feature array contains a NaN entry. -/
def hasNan (feats : List (Option ℝ)) : Bool := feats.any Option.isNone

/-- One iteration of the loop body of `extract_feature`'s `process`: non-`.wav`
files are ignored; a `.wav` file whose output already exists is skipped;
otherwise the output's parent directory is created, the embedder is invoked, and
the feature array is saved only when it contains no NaN; a raised exception is
caught and printed. -/
def processItem (oracle : EmbedOracle) (wav_dir out_dir : String) (dev : ℕ)
    (st : GoState) (file : String) : GoState :=
  if strEndsWith file ".wav" then
    if fsHasFile st.fs (pjoin out_dir (strReplace file "wav" "npy")) then st
    else
      let out_filepath := pjoin out_dir (strReplace file "wav" "npy")
      let st1 : GoState :=
        ⟨mkdirFS st.fs (dirname out_filepath),
         st.trace ++ [Event.mkdir (dirname out_filepath),
                      Event.callEmbed (pjoin wav_dir file) dev]⟩
      match oracle (pjoin wav_dir file) with
      | Except.error e => ⟨st1.fs, st1.trace ++ [Event.print (embedFailMsg e file)]⟩
      | Except.ok feats =>
          if hasNan feats then ⟨st1.fs, st1.trace ++ [Event.print (nanMsg file)]⟩
          else ⟨addFile st1.fs (savedPath out_filepath),
                st1.trace ++ [Event.write (savedPath out_filepath) (Content.feature feats)]⟩
  else st

/-- The loop of `extract_feature`'s `process` over its `todo` slice. -/
def process (oracle : EmbedOracle) (wav_dir out_dir : String) (dev : ℕ)
    (st : GoState) (todo : List String) : GoState :=
  todo.foldl (processItem oracle wav_dir out_dir dev) st

/-- The early-return guard of `extract_feature`: the output directory exists. -/
def guardFeat (fs : FS) (training_dir : String) : Bool :=
  fsHasDir fs (pjoin training_dir "3_feature256")

/-- Worker-spawn events of `extract_feature`: GPU `i` receives `todo[i::num_gpus]`. -/
def featSpawnTrace (entries : List DirEntry) (num_gpus : ℕ) : List Event :=
  (List.range num_gpus).map fun i => Event.spawnG (pySlice (enumTodo entries) i num_gpus) i

/-- The result of `extract_feature`: final file system, trace, and return value. -/
structure FeatOut where
  fs : FS
  trace : List Event
  ret : Option String

/-- `extract_feature`: return immediately (with `None`) when the output directory
exists; otherwise create it; return the "Not supported embedder" string for an
`embedder_name` outside `load_emb_dic`; otherwise load the embedder
(`num_gpus = torch.cuda.device_count()` is a parameter of the model), spawn one
worker per GPU on the slices `todo[i::num_gpus]`, and run them. -/
def extract_feature (oracle : EmbedOracle) (fs : FS) (entries : List DirEntry)
    (training_dir embedder_name : String) (num_gpus : ℕ) : FeatOut :=
  if guardFeat fs training_dir then ⟨fs, [], none⟩
  else
    let fs1 := mkdirFS fs (pjoin training_dir "3_feature256")
    if embedder_name ∈ supportedEmbedders then
      let st0 : GoState :=
        ⟨fs1, [Event.mkdir (pjoin training_dir "3_feature256"),
               Event.loadModel embedder_name] ++ featSpawnTrace entries num_gpus⟩
      let final := (List.range num_gpus).foldl
        (fun st i =>
          process oracle (pjoin training_dir "1_16k_wavs") (pjoin training_dir "3_feature256")
            i st (pySlice (enumTodo entries) i num_gpus)) st0
      ⟨final.fs, final.trace, none⟩
    else
      ⟨fs1, [Event.mkdir (pjoin training_dir "3_feature256")],
       some ("Not supported embedder: " ++ embedder_name)⟩

/-- The spawned process batches recorded in a trace, in spawn order. -/
def spawnPBatches (tr : List Event) : List (List F0Item) :=
  tr.filterMap fun e => match e with | Event.spawnP b => some b | _ => none

/-- The spawned GPU batches (with their device index) recorded in a trace. -/
def spawnGBatches (tr : List Event) : List (List String × ℕ) :=
  tr.filterMap fun e => match e with | Event.spawnG b d => some (b, d) | _ => none

/-- The `np.save` write events recorded in a trace. -/
def writesOf (tr : List Event) : List (String × Content) :=
  tr.filterMap fun e => match e with | Event.write p c => some (p, c) | _ => none

/-- Claim C2, formalised: a `go` work item whose two outputs both exist is returned
unchanged (no pitch computed, nothing written, nothing printed), and a `.wav` file
whose output `.npy` exists is returned unchanged by `process`. -/
def C2Prop : Prop :=
  (∀ (o : F0Oracle) (mthd : String) (idx : ℕ) (st : GoState) (inp o1 o2 : String),
     fsHasFile st.fs (o1 ++ ".npy") = true →
     fsHasFile st.fs (o2 ++ ".npy") = true →
     goItem o mthd idx st (inp, o1, o2) = st) ∧
  (∀ (o : EmbedOracle) (wd od : String) (dev : ℕ) (st : GoState) (file : String),
     strEndsWith file ".wav" = true →
     fsHasFile st.fs (pjoin od (strReplace file "wav" "npy")) = true →
     processItem o wd od dev st file = st)

/-- Claim C3, formalised: the batches are exactly the slices `l[i::n]`, their
concatenation is a permutation of the work list (no duplication, no drop), there
are `n` of them, batch `i` has the fixed size `⌈(len - i) / n⌉`, any two batch
sizes differ by at most one, and the spawned batches of `extract_f0` /
`extract_feature` are exactly these slices, worker `i` receiving slice `i`. -/
def C3Prop : Prop :=
  (∀ (α : Type) (l : List α) (n : ℕ), 1 ≤ n → ((pyBatches l n).flatten).Perm l) ∧
  (∀ (α : Type) (l : List α) (n : ℕ), (pyBatches l n).length = n) ∧
  (∀ (α : Type) (l : List α) (n i : ℕ), i < n → (pyBatches l n).getD i [] = pySlice l i n) ∧
  (∀ (α : Type) (l : List α) (i n : ℕ), 1 ≤ n →
     (pySlice l i n).length = (l.length - i + (n - 1)) / n) ∧
  (∀ (α : Type) (l : List α) (i j n : ℕ), i < n → j < n →
     (pySlice l i n).length ≤ (pySlice l j n).length + 1) ∧
  (∀ (o : F0Oracle) (fs : FS) (entries : List DirEntry) (td : String) (n : ℕ) (mthd : String),
     spawnPBatches (extract_f0 o fs entries td n mthd).trace =
       if guardF0 fs td then [] else pyBatches (f0Paths td entries) n) ∧
  (∀ (o : EmbedOracle) (fs : FS) (entries : List DirEntry) (td nm : String) (g : ℕ),
     spawnGBatches (extract_feature o fs entries td nm g).trace =
       if guardFeat fs td = false ∧ nm ∈ supportedEmbedders then
         (List.range g).map (fun i => (pySlice (enumTodo entries) i g, i))
       else [])

/-- Claim C4, formalised: an exception raised while processing one item is caught
and turned into a single `print` (after a single oracle invocation, hence no
retry), the loops step on to the remaining items unconditionally, and both loop
bodies are total functions into traces (no exception escapes). -/
def C4Prop : Prop :=
  (∀ (o : F0Oracle) (mthd : String) (idx : ℕ) (st : GoState) (item : F0Item) (e : String),
     (fsHasFile st.fs (item.2.1 ++ ".npy") && fsHasFile st.fs (item.2.2 ++ ".npy")) = false →
     o item.1 mthd = Except.error e →
     goItem o mthd idx st item =
       ⟨st.fs, st.trace ++ [Event.callF0 item.1 mthd, Event.print (f0FailMsg idx item.1 e)]⟩) ∧
  (∀ (o : F0Oracle) (mthd : String) (idx : ℕ) (st : GoState) (item : F0Item)
     (rest : List F0Item),
     goAux o mthd idx st (item :: rest) =
       goAux o mthd (idx + 1) (goItem o mthd idx st item) rest) ∧
  (∀ (o : EmbedOracle) (wd od : String) (dev : ℕ) (st : GoState) (file e : String),
     strEndsWith file ".wav" = true →
     fsHasFile st.fs (pjoin od (strReplace file "wav" "npy")) = false →
     o (pjoin wd file) = Except.error e →
     processItem o wd od dev st file =
       ⟨mkdirFS st.fs (dirname (pjoin od (strReplace file "wav" "npy"))),
        st.trace ++ [Event.mkdir (dirname (pjoin od (strReplace file "wav" "npy"))),
                     Event.callEmbed (pjoin wd file) dev,
                     Event.print (embedFailMsg e file)]⟩) ∧
  (∀ (o : EmbedOracle) (wd od : String) (dev : ℕ) (st : GoState) (file : String)
     (rest : List String),
     process o wd od dev st (file :: rest) =
       process o wd od dev (processItem o wd od dev st file) rest)

/-- Claim C6, formalised: a non-skipped item whose pitch computation succeeds
produces exactly two writes, the raw contour at `opt_path2` and then
`coarse_f0` of that same contour at `opt_path1`. -/
def C6Prop : Prop :=
  ∀ (o : F0Oracle) (mthd : String) (idx : ℕ) (st : GoState) (inp o1 o2 : String)
    (f0v : List ℝ),
    (fsHasFile st.fs (o1 ++ ".npy") && fsHasFile st.fs (o2 ++ ".npy")) = false →
    o inp mthd = Except.ok f0v →
    goItem o mthd idx st (inp, o1, o2) =
      ⟨addFile (addFile st.fs (savedPath o2)) (savedPath o1),
       st.trace ++ [Event.callF0 inp mthd,
                    Event.write (savedPath o2) (Content.f0raw f0v),
                    Event.write (savedPath o1) (Content.f0coarse (coarseF0 f0v))]⟩

/-- Claim C7, formalised: every work item of `extract_f0` pairs the input path
with the same relative name under `2a_f0` and `2b_f0nsf`; when the run proceeds,
its trace starts with all directory-creation events, then the worker spawns, and
the parent directories of both output paths of every item appear among the
directory-creation events. -/
def C7Prop : Prop :=
  (∀ (td : String) (entries : List DirEntry) (p : F0Item), p ∈ f0Paths td entries →
     ∃ name, name ∈ enumNames entries ∧
       p = (pjoin (pjoin td "1_16k_wavs") name,
            pjoin (pjoin td "2a_f0") name,
            pjoin (pjoin td "2b_f0nsf") name)) ∧
  (∀ (o : F0Oracle) (fs : FS) (entries : List DirEntry) (td : String) (n : ℕ) (mthd : String),
     guardF0 fs td = false →
     ∃ workerEvents,
       (extract_f0 o fs entries td n mthd).trace =
         f0MkdirTrace td entries ++ f0SpawnTrace td entries n ++ workerEvents) ∧
  (∀ (td : String) (entries : List DirEntry) (p : F0Item), p ∈ f0Paths td entries →
     Event.mkdir (dirname p.2.1) ∈ f0MkdirTrace td entries ∧
     Event.mkdir (dirname p.2.2) ∈ f0MkdirTrace td entries)

/-- Conclusion of claim C8 at given inputs: the feature array is saved iff it has
no NaN entry; with a NaN only the message is printed and nothing is written. -/
def C8Concl (o : EmbedOracle) (wd od : String) (dev : ℕ) (st : GoState) (file : String)
    (feats : List (Option ℝ)) : Prop :=
  (hasNan feats = false →
     processItem o wd od dev st file =
       ⟨addFile (mkdirFS st.fs (dirname (pjoin od (strReplace file "wav" "npy"))))
          (savedPath (pjoin od (strReplace file "wav" "npy"))),
        st.trace ++ [Event.mkdir (dirname (pjoin od (strReplace file "wav" "npy"))),
                     Event.callEmbed (pjoin wd file) dev,
                     Event.write (savedPath (pjoin od (strReplace file "wav" "npy")))
                       (Content.feature feats)]⟩) ∧
  (hasNan feats = true →
     processItem o wd od dev st file =
       ⟨mkdirFS st.fs (dirname (pjoin od (strReplace file "wav" "npy"))),
        st.trace ++ [Event.mkdir (dirname (pjoin od (strReplace file "wav" "npy"))),
                     Event.callEmbed (pjoin wd file) dev,
                     Event.print (nanMsg file)]⟩)

/-- Claim C8, formalised over all inputs. -/
def C8Prop : Prop :=
  ∀ (o : EmbedOracle) (wd od : String) (dev : ℕ) (st : GoState) (file : String)
    (feats : List (Option ℝ)),
    strEndsWith file ".wav" = true →
    fsHasFile st.fs (pjoin od (strReplace file "wav" "npy")) = false →
    o (pjoin wd file) = Except.ok feats →
    C8Concl o wd od dev st file feats

/-- Claim C9, formalised: an unsupported embedder name yields the error string
after the output directory was already created and nothing else; afterwards every
call on the resulting file system returns immediately with `none`. -/
def C9Prop : Prop :=
  ∀ (o : EmbedOracle) (fs : FS) (entries : List DirEntry) (td nm : String) (g : ℕ),
    guardFeat fs td = false →
    nm ∉ supportedEmbedders →
    (extract_feature o fs entries td nm g =
       ⟨mkdirFS fs (pjoin td "3_feature256"),
        [Event.mkdir (pjoin td "3_feature256")],
        some ("Not supported embedder: " ++ nm)⟩) ∧
    (∀ (o2 : EmbedOracle) (entries2 : List DirEntry) (nm2 : String) (g2 : ℕ),
       extract_feature o2 (mkdirFS fs (pjoin td "3_feature256")) entries2 td nm2 g2 =
         ⟨mkdirFS fs (pjoin td "3_feature256"), [], none⟩)

/-- Claim C10, formalised: with zero GPUs a fresh `extract_feature` run creates the
output directory and loads the model, but spawns no worker, processes no file and
writes nothing. -/
def C10Prop : Prop :=
  ∀ (o : EmbedOracle) (fs : FS) (entries : List DirEntry) (td nm : String),
    guardFeat fs td = false →
    nm ∈ supportedEmbedders →
    extract_feature o fs entries td nm 0 =
      ⟨mkdirFS fs (pjoin td "3_feature256"),
       [Event.mkdir (pjoin td "3_feature256"), Event.loadModel nm], none⟩

/-- A one-file dataset listing used for concrete runs. -/
def exEntries : List DirEntry := [DirEntry.file "a.wav"]

/-- A pitch oracle that always raises (a run in which every item fails, leaving
its inputs unprocessed). -/
def oracleFail : F0Oracle := fun _ _ => Except.error "librosa error"

/-- A pitch oracle that always succeeds with a constant contour. -/
def oracleOk : F0Oracle := fun _ _ => Except.ok [100]

/-- An embedder oracle that always raises. -/
def embedFail : EmbedOracle := fun _ => Except.error "cuda error"

/-- An embedder oracle that returns a NaN-free feature array. -/
def embedOk : EmbedOracle := fun _ => Except.ok [some 0]

/-- First run of `extract_f0` on an empty file system: every item fails, so no
output file is produced, but both output directories are created. -/
def run1 : GoState := extract_f0 oracleFail ⟨[], []⟩ exEntries "t" 1 "harvest"

/-- Second run of `extract_f0` on the file system left by `run1`, with a pitch
oracle that would succeed. -/
def run2 : GoState := extract_f0 oracleOk run1.fs exEntries "t" 1 "harvest"

/-- The empty worker state. -/
def emptySt : GoState := ⟨⟨[], []⟩, []⟩

/-- A worker state in which the outputs of the witness items already exist. -/
def stHave : GoState := ⟨⟨[], ["o1.npy", "o2.npy", "od/a.npy"]⟩, []⟩

/-- A five-item work list used to exhibit the batch sizes. -/
def exFive : List F0Item :=
  [("i0", "a0", "b0"), ("i1", "a1", "b1"), ("i2", "a2", "b2"),
   ("i3", "a3", "b3"), ("i4", "a4", "b4")]

/-! ### Helper lemmas: slicing -/

lemma pySlice_nil {α : Type u} (i n : ℕ) : pySlice ([] : List α) i n = [] := rfl

lemma pySlice_cons_zero {α : Type u} (x : α) (xs : List α) (n : ℕ) :
    pySlice (x :: xs) 0 n = x :: pySlice xs (n - 1) n := rfl

lemma pySlice_cons_succ {α : Type u} (x : α) (xs : List α) (i n : ℕ) :
    pySlice (x :: xs) (i + 1) n = pySlice xs i n := rfl

lemma flatten_map_const_nil {α : Type u} {β : Type v} (l : List β) :
    ((l.map (fun _ => ([] : List α))).flatten) = [] := by
  induction l with
  | nil => rfl
  | cons x xs ih => simp only [List.map_cons, List.flatten_cons, List.nil_append, ih]

lemma pyBatches_flatten_perm {α : Type u} : ∀ (l : List α) (n : ℕ), 1 ≤ n →
    ((pyBatches l n).flatten).Perm l := by
  intro l
  induction l with
  | nil =>
    intro n hn
    have h : pyBatches ([] : List α) n = (List.range n).map (fun _ => []) := by
      simp only [pyBatches, pySlice, everyNthAux]
    rw [h, flatten_map_const_nil]
  | cons x xs ih =>
    intro n hn
    obtain ⟨m, rfl⟩ : ∃ m, n = m + 1 := ⟨n - 1, by omega⟩
    have h1 : pyBatches (x :: xs) (m + 1) =
        (x :: pySlice xs m (m + 1)) :: (List.range m).map (fun i => pySlice xs i (m + 1)) := by
      rw [pyBatches, List.range_succ_eq_map, List.map_cons, List.map_map]
      rfl
    have h2 : pyBatches xs (m + 1) =
        ((List.range m).map (fun i => pySlice xs i (m + 1))) ++ [pySlice xs m (m + 1)] := by
      rw [pyBatches, List.range_succ, List.map_append]
      rfl
    have ihm := ih (m + 1) (by omega)
    rw [h2, List.flatten_append] at ihm
    simp only [List.flatten_cons, List.flatten_nil, List.append_nil] at ihm
    rw [h1]
    simp only [List.flatten_cons, List.cons_append]
    refine List.Perm.trans ?_ (ihm.cons x)
    exact (List.perm_append_comm).cons x

lemma everyNthAux_length {α : Type u} (m : ℕ) : ∀ (l : List α) (k : ℕ),
    (everyNthAux m l k).length = (l.length - k + m) / (m + 1) := by
  intro l
  induction l with
  | nil =>
    intro k
    simp only [everyNthAux, List.length_nil, Nat.zero_sub, Nat.zero_add]
    exact (Nat.div_eq_of_lt (by omega)).symm
  | cons x xs ih =>
    intro k
    cases k with
    | zero =>
      simp only [everyNthAux, List.length_cons]
      rw [ih m]
      have hr : xs.length + 1 - 0 + m = xs.length + (m + 1) := by omega
      rw [hr, Nat.add_div_right _ (Nat.succ_pos m)]
      rcases Nat.le_total m xs.length with h | h
      · have he : xs.length - m + m = xs.length := by omega
        rw [he]
      · have h1 : xs.length - m + m = m := by omega
        have h2 : xs.length / (m + 1) = 0 := Nat.div_eq_of_lt (by omega)
        rw [h1, h2, Nat.div_eq_of_lt (by omega)]
    | succ k =>
      simp only [everyNthAux, List.length_cons]
      rw [ih k]
      congr 1
      omega

lemma pySlice_length {α : Type u} (l : List α) (i n : ℕ) (hn : 1 ≤ n) :
    (pySlice l i n).length = (l.length - i + (n - 1)) / n := by
  rw [pySlice, everyNthAux_length]
  congr 1
  omega

lemma pyBatches_length {α : Type u} (l : List α) (n : ℕ) : (pyBatches l n).length = n := by
  simp [pyBatches]

lemma pyBatches_getD {α : Type u} (l : List α) (n i : ℕ) (h : i < n) :
    (pyBatches l n).getD i [] = pySlice l i n := by
  simp [pyBatches, List.getD_eq_getElem?_getD, List.getElem?_range h]

lemma pySlice_length_diff {α : Type u} (l : List α) (i j n : ℕ) (_hi : i < n) (hj : j < n) :
    (pySlice l i n).length ≤ (pySlice l j n).length + 1 := by
  have hn : 1 ≤ n := by omega
  rw [pySlice_length l i n hn, pySlice_length l j n hn]
  have hnum : l.length - i + (n - 1) ≤ (l.length - j + (n - 1)) + n := by omega
  calc (l.length - i + (n - 1)) / n ≤ ((l.length - j + (n - 1)) + n) / n :=
        Nat.div_le_div_right hnum
    _ = (l.length - j + (n - 1)) / n + 1 := Nat.add_div_right _ (by omega)

/-! ### Helper lemmas: rounding and the coarse pitch -/

lemma rint_bounds (a b : ℤ) (x : ℝ) (h1 : (a : ℝ) ≤ x) (h2 : x ≤ (b : ℝ)) :
    a ≤ rint x ∧ rint x ≤ b := by
  have hfa : a ≤ ⌊x⌋ := Int.le_floor.mpr h1
  have hfb : ⌊x⌋ ≤ b := by
    calc ⌊x⌋ ≤ ⌊(b : ℝ)⌋ := Int.floor_le_floor h2
      _ = b := Int.floor_intCast b
  rw [rint]
  split_ifs with htie heven
  · exact ⟨hfa, hfb⟩
  · constructor
    · omega
    · have hxf : (⌊x⌋ : ℝ) = x - 1 / 2 := by linarith
      have hlt : (⌊x⌋ : ℝ) < (b : ℝ) := by rw [hxf]; linarith
      have : ⌊x⌋ < b := by exact_mod_cast hlt
      omega
  · rw [round_eq]
    have h05 : ⌊(1 : ℝ) / 2⌋ = 0 := by
      rw [Int.floor_eq_zero_iff, Set.mem_Ico]
      norm_num
    constructor
    · apply Int.le_floor.mpr
      linarith
    · have hm : ⌊x + 1 / 2⌋ ≤ ⌊(b : ℝ) + 1 / 2⌋ := Int.floor_le_floor (by linarith)
      have hb : ⌊(b : ℝ) + 1 / 2⌋ = b := by rw [Int.floor_int_add, h05, add_zero]
      omega

lemma clampLow_ge_one (v : ℝ) : 1 ≤ clampLow v := by
  rw [clampLow]
  split_ifs with h
  · norm_num
  · linarith [lt_of_not_le h]

lemma clampHigh_bounds (v : ℝ) (h : 1 ≤ v) : 1 ≤ clampHigh v ∧ clampHigh v ≤ 255 := by
  have hbin : ((f0_bin : ℝ) - 1) = 255 := by norm_num [f0_bin]
  rw [clampHigh, hbin]
  split_ifs with h2
  · norm_num
  · exact ⟨h, le_of_not_lt h2⟩

lemma coarseF0Entry_bounds (x : ℝ) : 1 ≤ coarseF0Entry x ∧ coarseF0Entry x ≤ 255 := by
  have hc := clampHigh_bounds (clampLow (melRescale (melScale x)))
    (clampLow_ge_one (melRescale (melScale x)))
  rw [coarseF0Entry]
  exact rint_bounds 1 255 _ (by exact_mod_cast hc.1) (by exact_mod_cast hc.2)

/-! ### Helper lemmas: the `go` loop -/

lemma goItem_skip (o : F0Oracle) (mthd : String) (idx : ℕ) (st : GoState) (item : F0Item)
    (h : (fsHasFile st.fs (item.2.1 ++ ".npy") && fsHasFile st.fs (item.2.2 ++ ".npy")) = true) :
    goItem o mthd idx st item = st := by
  rw [goItem, if_pos h]

lemma goItem_error (o : F0Oracle) (mthd : String) (idx : ℕ) (st : GoState) (item : F0Item)
    (e : String)
    (h : (fsHasFile st.fs (item.2.1 ++ ".npy") && fsHasFile st.fs (item.2.2 ++ ".npy")) = false)
    (ho : o item.1 mthd = Except.error e) :
    goItem o mthd idx st item =
      ⟨st.fs, st.trace ++ [Event.callF0 item.1 mthd, Event.print (f0FailMsg idx item.1 e)]⟩ := by
  rw [goItem, if_neg (by simp [h]), ho]

lemma goItem_ok (o : F0Oracle) (mthd : String) (idx : ℕ) (st : GoState) (item : F0Item)
    (v : List ℝ)
    (h : (fsHasFile st.fs (item.2.1 ++ ".npy") && fsHasFile st.fs (item.2.2 ++ ".npy")) = false)
    (ho : o item.1 mthd = Except.ok v) :
    goItem o mthd idx st item =
      ⟨addFile (addFile st.fs (savedPath item.2.2)) (savedPath item.2.1),
       st.trace ++ [Event.callF0 item.1 mthd,
                    Event.write (savedPath item.2.2) (Content.f0raw v),
                    Event.write (savedPath item.2.1) (Content.f0coarse (coarseF0 v))]⟩ := by
  rw [goItem, if_neg (by simp [h]), ho]

lemma goAux_nil (o : F0Oracle) (mthd : String) (idx : ℕ) (st : GoState) :
    goAux o mthd idx st [] = st := rfl

lemma goAux_cons (o : F0Oracle) (mthd : String) (idx : ℕ) (st : GoState) (item : F0Item)
    (rest : List F0Item) :
    goAux o mthd idx st (item :: rest) =
      goAux o mthd (idx + 1) (goItem o mthd idx st item) rest := rfl

lemma goItem_fs_dirs (o : F0Oracle) (mthd : String) (idx : ℕ) (st : GoState) (item : F0Item) :
    (goItem o mthd idx st item).fs.dirs = st.fs.dirs := by
  rw [goItem]
  split_ifs with h
  · rfl
  · cases ho : o item.1 mthd <;> rfl

lemma goItem_trace_mono (o : F0Oracle) (mthd : String) (idx : ℕ) (st : GoState) (item : F0Item) :
    ∃ ex, (goItem o mthd idx st item).trace = st.trace ++ ex := by
  rw [goItem]
  split_ifs with h
  · exact ⟨[], (List.append_nil _).symm⟩
  · cases ho : o item.1 mthd with
    | error e => exact ⟨_, rfl⟩
    | ok v => exact ⟨_, rfl⟩

lemma spawnPBatches_append (a b : List Event) :
    spawnPBatches (a ++ b) = spawnPBatches a ++ spawnPBatches b := by
  simp only [spawnPBatches, List.filterMap_append]

lemma spawnGBatches_append (a b : List Event) :
    spawnGBatches (a ++ b) = spawnGBatches a ++ spawnGBatches b := by
  simp only [spawnGBatches, List.filterMap_append]

lemma goItem_spawnP (o : F0Oracle) (mthd : String) (idx : ℕ) (st : GoState) (item : F0Item) :
    spawnPBatches (goItem o mthd idx st item).trace = spawnPBatches st.trace := by
  rw [goItem]
  split_ifs with h
  · rfl
  · cases ho : o item.1 mthd with
    | error e =>
      show spawnPBatches (st.trace ++ _) = spawnPBatches st.trace
      rw [spawnPBatches_append]
      show spawnPBatches st.trace ++ [] = spawnPBatches st.trace
      rw [List.append_nil]
    | ok v =>
      show spawnPBatches (st.trace ++ _) = spawnPBatches st.trace
      rw [spawnPBatches_append]
      show spawnPBatches st.trace ++ [] = spawnPBatches st.trace
      rw [List.append_nil]

lemma goAux_fs_dirs (o : F0Oracle) (mthd : String) :
    ∀ (l : List F0Item) (idx : ℕ) (st : GoState),
      (goAux o mthd idx st l).fs.dirs = st.fs.dirs := by
  intro l
  induction l with
  | nil => intro idx st; rfl
  | cons item rest ih =>
    intro idx st
    rw [goAux_cons, ih, goItem_fs_dirs]

lemma goAux_trace_mono (o : F0Oracle) (mthd : String) :
    ∀ (l : List F0Item) (idx : ℕ) (st : GoState),
      ∃ ex, (goAux o mthd idx st l).trace = st.trace ++ ex := by
  intro l
  induction l with
  | nil => intro idx st; exact ⟨[], (List.append_nil _).symm⟩
  | cons item rest ih =>
    intro idx st
    obtain ⟨ex1, h1⟩ := goItem_trace_mono o mthd idx st item
    obtain ⟨ex2, h2⟩ := ih (idx + 1) (goItem o mthd idx st item)
    exact ⟨ex1 ++ ex2, by rw [goAux_cons, h2, h1, List.append_assoc]⟩

lemma goAux_spawnP (o : F0Oracle) (mthd : String) :
    ∀ (l : List F0Item) (idx : ℕ) (st : GoState),
      spawnPBatches (goAux o mthd idx st l).trace = spawnPBatches st.trace := by
  intro l
  induction l with
  | nil => intro idx st; rfl
  | cons item rest ih =>
    intro idx st
    rw [goAux_cons, ih, goItem_spawnP]

lemma extract_f0_workers_dirs (o : F0Oracle) (mthd : String) (paths : List F0Item) (n : ℕ) :
    ∀ (idxs : List ℕ) (st : GoState),
      ((idxs.foldl (fun st i => go o mthd st (pySlice paths i n)) st).fs.dirs = st.fs.dirs) := by
  intro idxs
  induction idxs with
  | nil => intro st; rfl
  | cons i rest ih =>
    intro st
    rw [List.foldl_cons, ih, go, goAux_fs_dirs]

lemma extract_f0_workers_trace (o : F0Oracle) (mthd : String) (paths : List F0Item) (n : ℕ) :
    ∀ (idxs : List ℕ) (st : GoState),
      ∃ ex, ((idxs.foldl (fun st i => go o mthd st (pySlice paths i n)) st).trace = st.trace ++ ex) := by
  intro idxs
  induction idxs with
  | nil => intro st; exact ⟨[], (List.append_nil _).symm⟩
  | cons i rest ih =>
    intro st
    obtain ⟨ex1, h1⟩ := goAux_trace_mono o mthd (pySlice paths i n) 0 st
    obtain ⟨ex2, h2⟩ := ih (go o mthd st (pySlice paths i n))
    refine ⟨ex1 ++ ex2, ?_⟩
    rw [List.foldl_cons, h2, go, h1, List.append_assoc]

lemma extract_f0_workers_spawnP (o : F0Oracle) (mthd : String) (paths : List F0Item) (n : ℕ) :
    ∀ (idxs : List ℕ) (st : GoState),
      spawnPBatches ((idxs.foldl (fun st i => go o mthd st (pySlice paths i n)) st).trace) =
        spawnPBatches st.trace := by
  intro idxs
  induction idxs with
  | nil => intro st; rfl
  | cons i rest ih =>
    intro st
    rw [List.foldl_cons, ih, go, goAux_spawnP]

/-! ### Helper lemmas: the `process` loop -/

lemma processItem_notwav (o : EmbedOracle) (wd od : String) (dev : ℕ) (st : GoState)
    (file : String) (h : strEndsWith file ".wav" = false) :
    processItem o wd od dev st file = st := by
  rw [processItem, if_neg (by simp [h])]

lemma processItem_skip (o : EmbedOracle) (wd od : String) (dev : ℕ) (st : GoState)
    (file : String) (hw : strEndsWith file ".wav" = true)
    (hs : fsHasFile st.fs (pjoin od (strReplace file "wav" "npy")) = true) :
    processItem o wd od dev st file = st := by
  rw [processItem, if_pos hw, if_pos hs]

lemma processItem_error (o : EmbedOracle) (wd od : String) (dev : ℕ) (st : GoState)
    (file e : String) (hw : strEndsWith file ".wav" = true)
    (hs : fsHasFile st.fs (pjoin od (strReplace file "wav" "npy")) = false)
    (ho : o (pjoin wd file) = Except.error e) :
    processItem o wd od dev st file =
      ⟨mkdirFS st.fs (dirname (pjoin od (strReplace file "wav" "npy"))),
       st.trace ++ [Event.mkdir (dirname (pjoin od (strReplace file "wav" "npy"))),
                    Event.callEmbed (pjoin wd file) dev,
                    Event.print (embedFailMsg e file)]⟩ := by
  rw [processItem, if_pos hw, if_neg (by simp [hs]), ho]
  simp [List.append_assoc]

lemma processItem_ok_nan (o : EmbedOracle) (wd od : String) (dev : ℕ) (st : GoState)
    (file : String) (feats : List (Option ℝ)) (hw : strEndsWith file ".wav" = true)
    (hs : fsHasFile st.fs (pjoin od (strReplace file "wav" "npy")) = false)
    (ho : o (pjoin wd file) = Except.ok feats) (hn : hasNan feats = true) :
    processItem o wd od dev st file =
      ⟨mkdirFS st.fs (dirname (pjoin od (strReplace file "wav" "npy"))),
       st.trace ++ [Event.mkdir (dirname (pjoin od (strReplace file "wav" "npy"))),
                    Event.callEmbed (pjoin wd file) dev,
                    Event.print (nanMsg file)]⟩ := by
  rw [processItem, if_pos hw, if_neg (by simp [hs]), ho]
  simp [hn, List.append_assoc]

lemma processItem_ok_save (o : EmbedOracle) (wd od : String) (dev : ℕ) (st : GoState)
    (file : String) (feats : List (Option ℝ)) (hw : strEndsWith file ".wav" = true)
    (hs : fsHasFile st.fs (pjoin od (strReplace file "wav" "npy")) = false)
    (ho : o (pjoin wd file) = Except.ok feats) (hn : hasNan feats = false) :
    processItem o wd od dev st file =
      ⟨addFile (mkdirFS st.fs (dirname (pjoin od (strReplace file "wav" "npy"))))
         (savedPath (pjoin od (strReplace file "wav" "npy"))),
       st.trace ++ [Event.mkdir (dirname (pjoin od (strReplace file "wav" "npy"))),
                    Event.callEmbed (pjoin wd file) dev,
                    Event.write (savedPath (pjoin od (strReplace file "wav" "npy")))
                      (Content.feature feats)]⟩ := by
  rw [processItem, if_pos hw, if_neg (by simp [hs]), ho]
  simp [hn, List.append_assoc]

lemma process_nil (o : EmbedOracle) (wd od : String) (dev : ℕ) (st : GoState) :
    process o wd od dev st [] = st := rfl

lemma process_cons (o : EmbedOracle) (wd od : String) (dev : ℕ) (st : GoState)
    (file : String) (rest : List String) :
    process o wd od dev st (file :: rest) =
      process o wd od dev (processItem o wd od dev st file) rest := rfl

lemma processItem_mem_dirs (o : EmbedOracle) (wd od : String) (dev : ℕ) (st : GoState)
    (file : String) (x : String) (h : x ∈ st.fs.dirs) :
    x ∈ (processItem o wd od dev st file).fs.dirs := by
  rw [processItem]
  split_ifs with h1 h2
  · exact h
  · cases ho : o (pjoin wd file) with
    | error e =>
      simp only [mkdirFS, List.mem_append]
      exact Or.inl h
    | ok feats =>
      dsimp only
      split_ifs with h3
      · simp only [mkdirFS, List.mem_append]
        exact Or.inl h
      · simp only [addFile, mkdirFS, List.mem_append]
        exact Or.inl h
  · exact h

lemma processItem_spawnG (o : EmbedOracle) (wd od : String) (dev : ℕ) (st : GoState)
    (file : String) :
    spawnGBatches (processItem o wd od dev st file).trace = spawnGBatches st.trace := by
  rw [processItem]
  split_ifs with h1 h2
  · rfl
  · cases ho : o (pjoin wd file) with
    | error e =>
      show spawnGBatches ((st.trace ++ _) ++ _) = spawnGBatches st.trace
      rw [spawnGBatches_append, spawnGBatches_append]
      show (spawnGBatches st.trace ++ []) ++ [] = spawnGBatches st.trace
      rw [List.append_nil, List.append_nil]
    | ok feats =>
      dsimp only
      split_ifs with h3
      · show spawnGBatches ((st.trace ++ _) ++ _) = spawnGBatches st.trace
        rw [spawnGBatches_append, spawnGBatches_append]
        show (spawnGBatches st.trace ++ []) ++ [] = spawnGBatches st.trace
        rw [List.append_nil, List.append_nil]
      · show spawnGBatches ((st.trace ++ _) ++ _) = spawnGBatches st.trace
        rw [spawnGBatches_append, spawnGBatches_append]
        show (spawnGBatches st.trace ++ []) ++ [] = spawnGBatches st.trace
        rw [List.append_nil, List.append_nil]
  · rfl

lemma process_mem_dirs (o : EmbedOracle) (wd od : String) (dev : ℕ) :
    ∀ (todo : List String) (st : GoState) (x : String), x ∈ st.fs.dirs →
      x ∈ (process o wd od dev st todo).fs.dirs := by
  intro todo
  induction todo with
  | nil => intro st x h; exact h
  | cons f rest ih =>
    intro st x h
    rw [process_cons]
    exact ih _ x (processItem_mem_dirs o wd od dev st f x h)

lemma process_spawnG (o : EmbedOracle) (wd od : String) (dev : ℕ) :
    ∀ (todo : List String) (st : GoState),
      spawnGBatches (process o wd od dev st todo).trace = spawnGBatches st.trace := by
  intro todo
  induction todo with
  | nil => intro st; rfl
  | cons f rest ih =>
    intro st
    rw [process_cons, ih, processItem_spawnG]

lemma feat_workers_mem_dirs (o : EmbedOracle) (wd od : String) (todo : List String) (n : ℕ) :
    ∀ (idxs : List ℕ) (st : GoState) (x : String), x ∈ st.fs.dirs →
      x ∈ ((idxs.foldl (fun st i => process o wd od i st (pySlice todo i n)) st).fs.dirs) := by
  intro idxs
  induction idxs with
  | nil => intro st x h; exact h
  | cons i rest ih =>
    intro st x h
    rw [List.foldl_cons]
    exact ih _ x (process_mem_dirs o wd od i (pySlice todo i n) st x h)

lemma feat_workers_spawnG (o : EmbedOracle) (wd od : String) (todo : List String) (n : ℕ) :
    ∀ (idxs : List ℕ) (st : GoState),
      spawnGBatches ((idxs.foldl (fun st i => process o wd od i st (pySlice todo i n)) st).trace) =
        spawnGBatches st.trace := by
  intro idxs
  induction idxs with
  | nil => intro st; rfl
  | cons i rest ih =>
    intro st
    rw [List.foldl_cons, ih, process_spawnG]

/-! ### Helper lemmas: the two extraction drivers -/

lemma bool_eq_false {b : Bool} (h : ¬(b = true)) : b = false := by
  cases b with
  | false => rfl
  | true => exact absurd rfl h

lemma spawnPBatches_mkdir_flatMap (dd : List (String × String)) :
    spawnPBatches (dd.flatMap (fun d => [Event.mkdir d.1, Event.mkdir d.2])) = [] := by
  induction dd with
  | nil => rfl
  | cons d rest ih =>
    rw [List.flatMap_cons, spawnPBatches_append, ih]
    rfl

lemma spawnPBatches_f0MkdirTrace (td : String) (entries : List DirEntry) :
    spawnPBatches (f0MkdirTrace td entries) = [] := by
  rw [f0MkdirTrace, spawnPBatches_append, spawnPBatches_mkdir_flatMap]
  rfl

lemma spawnPBatches_map_spawnP (bs : List (List F0Item)) :
    spawnPBatches (bs.map Event.spawnP) = bs := by
  induction bs with
  | nil => rfl
  | cons b rest ih =>
    show b :: spawnPBatches (rest.map Event.spawnP) = b :: rest
    rw [ih]

lemma spawnGBatches_map_spawnG (f : ℕ → List String) (il : List ℕ) :
    spawnGBatches (il.map (fun i => Event.spawnG (f i) i)) = il.map (fun i => (f i, i)) := by
  induction il with
  | nil => rfl
  | cons i rest ih =>
    show (f i, i) :: spawnGBatches (rest.map (fun i => Event.spawnG (f i) i)) =
      (f i, i) :: rest.map (fun i => (f i, i))
    rw [ih]

lemma spawnGBatches_featSpawnTrace (entries : List DirEntry) (g : ℕ) :
    spawnGBatches (featSpawnTrace entries g) =
      (List.range g).map (fun i => (pySlice (enumTodo entries) i g, i)) := by
  rw [featSpawnTrace]
  exact spawnGBatches_map_spawnG (fun i => pySlice (enumTodo entries) i g) (List.range g)

lemma mem_dirs_foldl_mkdir (dd : List (String × String)) :
    ∀ (a : FS) (x : String), x ∈ a.dirs →
      x ∈ (dd.foldl (fun a d => mkdirFS (mkdirFS a d.1) d.2) a).dirs := by
  induction dd with
  | nil => intro a x h; exact h
  | cons d rest ih =>
    intro a x h
    rw [List.foldl_cons]
    apply ih
    simp only [mkdirFS, List.mem_append]
    exact Or.inl (Or.inl h)

lemma extract_f0_guard_true (o : F0Oracle) (fs : FS) (entries : List DirEntry)
    (td : String) (n : ℕ) (mthd : String) (hg : guardF0 fs td = true) :
    extract_f0 o fs entries td n mthd = ⟨fs, []⟩ := by
  rw [extract_f0, if_pos hg]

lemma extract_f0_guard_false (o : F0Oracle) (fs : FS) (entries : List DirEntry)
    (td : String) (n : ℕ) (mthd : String) (hg : guardF0 fs td = false) :
    extract_f0 o fs entries td n mthd =
      (List.range n).foldl
        (fun st i => go o mthd st (pySlice (f0Paths td entries) i n))
        ⟨(f0ParentDirs td entries).foldl (fun a d => mkdirFS (mkdirFS a d.1) d.2)
           (mkdirFS (mkdirFS fs (pjoin td "2a_f0")) (pjoin td "2b_f0nsf")),
         f0MkdirTrace td entries ++ f0SpawnTrace td entries n⟩ := by
  rw [extract_f0, if_neg (by simp [hg])]

lemma extract_f0_guard_after (o : F0Oracle) (fs : FS) (entries : List DirEntry)
    (td : String) (n : ℕ) (mthd : String) :
    guardF0 (extract_f0 o fs entries td n mthd).fs td = true := by
  by_cases hg : guardF0 fs td = true
  · rw [extract_f0_guard_true o fs entries td n mthd hg]
    exact hg
  · have hg' : guardF0 fs td = false := bool_eq_false hg
    rw [extract_f0_guard_false o fs entries td n mthd hg']
    have h1 : pjoin td "2a_f0" ∈
        ((List.range n).foldl
          (fun st i => go o mthd st (pySlice (f0Paths td entries) i n))
          ⟨(f0ParentDirs td entries).foldl (fun a d => mkdirFS (mkdirFS a d.1) d.2)
             (mkdirFS (mkdirFS fs (pjoin td "2a_f0")) (pjoin td "2b_f0nsf")),
           f0MkdirTrace td entries ++ f0SpawnTrace td entries n⟩).fs.dirs := by
      rw [extract_f0_workers_dirs]
      apply mem_dirs_foldl_mkdir
      simp [mkdirFS]
    have h2 : pjoin td "2b_f0nsf" ∈
        ((List.range n).foldl
          (fun st i => go o mthd st (pySlice (f0Paths td entries) i n))
          ⟨(f0ParentDirs td entries).foldl (fun a d => mkdirFS (mkdirFS a d.1) d.2)
             (mkdirFS (mkdirFS fs (pjoin td "2a_f0")) (pjoin td "2b_f0nsf")),
           f0MkdirTrace td entries ++ f0SpawnTrace td entries n⟩).fs.dirs := by
      rw [extract_f0_workers_dirs]
      apply mem_dirs_foldl_mkdir
      simp [mkdirFS]
    simp only [guardF0, fsHasDir, Bool.and_eq_true, decide_eq_true_eq]
    exact ⟨h1, h2⟩

lemma extract_feature_guard_true (o : EmbedOracle) (fs : FS) (entries : List DirEntry)
    (td nm : String) (g : ℕ) (hg : guardFeat fs td = true) :
    extract_feature o fs entries td nm g = ⟨fs, [], none⟩ := by
  rw [extract_feature, if_pos hg]

lemma extract_feature_unsupported (o : EmbedOracle) (fs : FS) (entries : List DirEntry)
    (td nm : String) (g : ℕ) (hg : guardFeat fs td = false) (hnm : nm ∉ supportedEmbedders) :
    extract_feature o fs entries td nm g =
      ⟨mkdirFS fs (pjoin td "3_feature256"),
       [Event.mkdir (pjoin td "3_feature256")],
       some ("Not supported embedder: " ++ nm)⟩ := by
  rw [extract_feature, if_neg (by simp [hg]), if_neg hnm]

lemma extract_feature_supported (o : EmbedOracle) (fs : FS) (entries : List DirEntry)
    (td nm : String) (g : ℕ) (hg : guardFeat fs td = false) (hnm : nm ∈ supportedEmbedders) :
    extract_feature o fs entries td nm g =
      ⟨((List.range g).foldl
          (fun st i => process o (pjoin td "1_16k_wavs") (pjoin td "3_feature256") i st
            (pySlice (enumTodo entries) i g))
          ⟨mkdirFS fs (pjoin td "3_feature256"),
           [Event.mkdir (pjoin td "3_feature256"), Event.loadModel nm]
             ++ featSpawnTrace entries g⟩).fs,
       ((List.range g).foldl
          (fun st i => process o (pjoin td "1_16k_wavs") (pjoin td "3_feature256") i st
            (pySlice (enumTodo entries) i g))
          ⟨mkdirFS fs (pjoin td "3_feature256"),
           [Event.mkdir (pjoin td "3_feature256"), Event.loadModel nm]
             ++ featSpawnTrace entries g⟩).trace,
       none⟩ := by
  rw [extract_feature, if_neg (by simp [hg]), if_pos hnm]

lemma extract_feature_dir_after (o : EmbedOracle) (fs : FS) (entries : List DirEntry)
    (td nm : String) (g : ℕ) :
    guardFeat (extract_feature o fs entries td nm g).fs td = true := by
  by_cases hg : guardFeat fs td = true
  · rw [extract_feature_guard_true o fs entries td nm g hg]
    exact hg
  · have hg' : guardFeat fs td = false := bool_eq_false hg
    by_cases hnm : nm ∈ supportedEmbedders
    · rw [extract_feature_supported o fs entries td nm g hg' hnm]
      simp only [guardFeat, fsHasDir, decide_eq_true_eq]
      apply feat_workers_mem_dirs
      simp [mkdirFS]
    · rw [extract_feature_unsupported o fs entries td nm g hg' hnm]
      simp [guardFeat, fsHasDir, mkdirFS]

/-! ### Claim theorems -/

/-- C1 (amended): re-running `extract_f0` (resp. `extract_feature`) after any
prior run is a complete no-op — the prior run left both output directories
(resp. the output directory) in place, so the re-run returns immediately,
leaving every existing output file unchanged but also producing no outputs for
inputs the prior run left unprocessed. -/
theorem C1_rerun_is_noop :
    (∀ (o1 o2 : F0Oracle) (fs : FS) (e1 e2 : List DirEntry) (td : String)
       (n1 n2 : ℕ) (m1 m2 : String),
       extract_f0 o2 (extract_f0 o1 fs e1 td n1 m1).fs e2 td n2 m2 =
         ⟨(extract_f0 o1 fs e1 td n1 m1).fs, []⟩) ∧
    (∀ (o1 o2 : EmbedOracle) (fs : FS) (e1 e2 : List DirEntry) (td nm1 nm2 : String)
       (g1 g2 : ℕ),
       extract_feature o2 (extract_feature o1 fs e1 td nm1 g1).fs e2 td nm2 g2 =
         ⟨(extract_feature o1 fs e1 td nm1 g1).fs, [], none⟩) := by
  constructor
  · intro o1 o2 fs e1 e2 td n1 n2 m1 m2
    exact extract_f0_guard_true o2 _ e2 td n2 m2 (extract_f0_guard_after o1 fs e1 td n1 m1)
  · intro o1 o2 fs e1 e2 td nm1 nm2 g1 g2
    exact extract_feature_guard_true o2 _ e2 td nm2 g2
      (extract_feature_dir_after o1 fs e1 td nm1 g1)

/-- C1 counterexample: after a prior partial run of `extract_f0` (the pitch
tracker raised on `a.wav`, so its outputs do not exist), a re-run with a working
pitch tracker performs no work at all — its trace is empty and the file system is
untouched — contradicting "still produces the outputs for all remaining
unprocessed inputs". -/
theorem C1_counterexample :
    fsHasFile run1.fs (pjoin (pjoin "t" "2a_f0") "a.wav" ++ ".npy") = false ∧
    run2.trace = [] ∧ run2.fs = run1.fs := by
  refine ⟨by decide, ?_, ?_⟩
  · show (extract_f0 oracleOk run1.fs exEntries "t" 1 "harvest").trace = []
    rw [extract_f0_guard_true oracleOk run1.fs exEntries "t" 1 "harvest" (by decide)]
  · show (extract_f0 oracleOk run1.fs exEntries "t" 1 "harvest").fs = run1.fs
    rw [extract_f0_guard_true oracleOk run1.fs exEntries "t" 1 "harvest" (by decide)]

/-- C2: a work item of `FeatureInput.go` whose two output files both already
exist is skipped — no pitch is computed and neither file is rewritten — and
`process` likewise skips a `.wav` file whose output `.npy` already exists. -/
theorem C2_per_item_skip : C2Prop := by
  constructor
  · intro o mthd idx st inp o1 o2 h1 h2
    apply goItem_skip
    show (fsHasFile st.fs (o1 ++ ".npy") && fsHasFile st.fs (o2 ++ ".npy")) = true
    rw [h1, h2]
    rfl
  · intro o wd od dev st file hw hs
    exact processItem_skip o wd od dev st file hw hs

/-- Witness for C2 at concrete inputs: both skip branches fire on a state that
already has the output files. -/
theorem C2_witness :
    goItem oracleOk "pm" 0 stHave ("i.wav", "o1", "o2") = stHave ∧
    processItem embedOk "wd" "od" 0 stHave "a.wav" = stHave := by
  constructor
  · exact C2_per_item_skip.1 oracleOk "pm" 0 stHave "i.wav" "o1" "o2" (by decide) (by decide)
  · exact C2_per_item_skip.2 embedOk "wd" "od" 0 stHave "a.wav" (by decide) (by decide)

/-- C3: the fan-out of `extract_f0` and `extract_feature` hands slice `l[i::n]`
to worker `i`; the `n` batches have the fixed sizes `⌈(len−i)/n⌉` (differing
pairwise by at most one) and partition the work list — no item is duplicated or
dropped. -/
theorem C3_fanout_partition : C3Prop := by
  refine ⟨?_, ?_, ?_, ?_, ?_, ?_, ?_⟩
  · intro α l n hn
    exact pyBatches_flatten_perm l n hn
  · intro α l n
    exact pyBatches_length l n
  · intro α l n i h
    exact pyBatches_getD l n i h
  · intro α l i n hn
    exact pySlice_length l i n hn
  · intro α l i j n hi hj
    exact pySlice_length_diff l i j n hi hj
  · intro o fs entries td n mthd
    by_cases hg : guardF0 fs td = true
    · rw [extract_f0_guard_true o fs entries td n mthd hg, if_pos hg]
      rfl
    · have hg' : guardF0 fs td = false := bool_eq_false hg
      rw [if_neg (show ¬(guardF0 fs td = true) by simp [hg'])]
      rw [extract_f0_guard_false o fs entries td n mthd hg']
      rw [extract_f0_workers_spawnP]
      show spawnPBatches (f0MkdirTrace td entries ++ f0SpawnTrace td entries n) = _
      rw [spawnPBatches_append, spawnPBatches_f0MkdirTrace, List.nil_append, f0SpawnTrace,
        spawnPBatches_map_spawnP]
  · intro o fs entries td nm g
    by_cases hg : guardFeat fs td = true
    · rw [extract_feature_guard_true o fs entries td nm g hg,
        if_neg (show ¬(guardFeat fs td = false ∧ nm ∈ supportedEmbedders) by simp [hg])]
      rfl
    · have hg' : guardFeat fs td = false := bool_eq_false hg
      by_cases hnm : nm ∈ supportedEmbedders
      · rw [extract_feature_supported o fs entries td nm g hg' hnm,
          if_pos (⟨hg', hnm⟩ : guardFeat fs td = false ∧ nm ∈ supportedEmbedders)]
        dsimp only
        rw [feat_workers_spawnG]
        dsimp only
        rw [spawnGBatches_append]
        show [] ++ spawnGBatches (featSpawnTrace entries g) = _
        rw [List.nil_append, spawnGBatches_featSpawnTrace]
      · rw [extract_feature_unsupported o fs entries td nm g hg' hnm,
          if_neg (show ¬(guardFeat fs td = false ∧ nm ∈ supportedEmbedders) by simp [hnm])]
        rfl

/-- Witness for C3 at concrete inputs: the partition, the size formula
(`5` items over `2` workers give batches of sizes `3` and `2`), and the spawned
batches of a concrete `extract_f0` run. -/
theorem C3_witness :
    ((pyBatches exFive 2).flatten).Perm exFive ∧
    (pySlice exFive 0 2).length = (exFive.length - 0 + (2 - 1)) / 2 ∧
    (pySlice exFive 1 2).length = (exFive.length - 1 + (2 - 1)) / 2 ∧
    spawnPBatches (extract_f0 oracleFail ⟨[], []⟩ exEntries "t" 1 "harvest").trace =
      (if guardF0 ⟨[], []⟩ "t" then [] else pyBatches (f0Paths "t" exEntries) 1) := by
  refine ⟨?_, ?_, ?_, ?_⟩
  · exact C3_fanout_partition.1 F0Item exFive 2 (by norm_num)
  · exact C3_fanout_partition.2.2.2.1 F0Item exFive 0 2 (by norm_num)
  · exact C3_fanout_partition.2.2.2.1 F0Item exFive 1 2 (by norm_num)
  · exact C3_fanout_partition.2.2.2.2.2.1 oracleFail ⟨[], []⟩ exEntries "t" 1 "harvest"

/-- C4: a per-item exception inside `FeatureInput.go` or inside
`extract_feature`'s `process` is caught and logged as a single `print` after a
single external invocation (no retry); both loops continue unconditionally with
the remaining items, and both loop bodies are total — no exception propagates. -/
theorem C4_exception_containment : C4Prop := by
  refine ⟨?_, ?_, ?_, ?_⟩
  · intro o mthd idx st item e h ho
    exact goItem_error o mthd idx st item e h ho
  · intro o mthd idx st item rest
    exact goAux_cons o mthd idx st item rest
  · intro o wd od dev st file e hw hs ho
    exact processItem_error o wd od dev st file e hw hs ho
  · intro o wd od dev st file rest
    exact process_cons o wd od dev st file rest

/-- Witness for C4 at concrete inputs: a failing pitch oracle and a failing
embedder oracle each produce exactly one call and one printed message. -/
theorem C4_witness :
    goItem oracleFail "pm" 0 emptySt ("i.wav", "o1", "o2") =
      ⟨emptySt.fs, emptySt.trace ++
        [Event.callF0 "i.wav" "pm", Event.print (f0FailMsg 0 "i.wav" "librosa error")]⟩ ∧
    processItem embedFail "wd" "od" 0 emptySt "a.wav" =
      ⟨mkdirFS emptySt.fs (dirname (pjoin "od" (strReplace "a.wav" "wav" "npy"))),
       emptySt.trace ++ [Event.mkdir (dirname (pjoin "od" (strReplace "a.wav" "wav" "npy"))),
                         Event.callEmbed (pjoin "wd" "a.wav") 0,
                         Event.print (embedFailMsg "cuda error" "a.wav")]⟩ := by
  constructor
  · exact C4_exception_containment.1 oracleFail "pm" 0 emptySt ("i.wav", "o1", "o2")
      "librosa error" (by decide) rfl
  · exact C4_exception_containment.2.2.1 embedFail "wd" "od" 0 emptySt "a.wav" "cuda error"
      (by decide) (by decide) rfl

/-- C5: for every F0 array with non-negative entries, `coarse_f0` returns an
integer array of the same length with every entry between `1` and
`f0_bin - 1 = 255` inclusive, so its final assertion never fails. -/
theorem C5_coarse_f0_range (f0 : List ℝ) (_h : ∀ x ∈ f0, 0 ≤ x) :
    (coarseF0 f0).length = f0.length ∧ ∀ y ∈ coarseF0 f0, 1 ≤ y ∧ y ≤ 255 := by
  constructor
  · simp [coarseF0]
  · intro y hy
    rw [coarseF0, List.mem_map] at hy
    obtain ⟨x, hx, rfl⟩ := hy
    exact coarseF0Entry_bounds x

/-- Witness for C5 at the concrete one-entry array `[100]`. -/
theorem C5_witness :
    (∀ x ∈ [(100 : ℝ)], 0 ≤ x) ∧
    ((coarseF0 [(100 : ℝ)]).length = [(100 : ℝ)].length ∧
      ∀ y ∈ coarseF0 [(100 : ℝ)], 1 ≤ y ∧ y ≤ 255) := by
  have hpos : ∀ x ∈ [(100 : ℝ)], 0 ≤ x := by
    intro x hx
    rw [List.mem_singleton] at hx
    rw [hx]
    norm_num
  exact ⟨hpos, C5_coarse_f0_range [(100 : ℝ)] hpos⟩

/-- C6: a non-skipped `go` item whose pitch computation succeeds writes exactly
two files — the raw contour at `opt_path2` and `coarse_f0` of that same contour
at `opt_path1`. -/
theorem C6_two_representations : C6Prop := by
  intro o mthd idx st inp o1 o2 f0v h ho
  exact goItem_ok o mthd idx st (inp, o1, o2) f0v h ho

/-- Witness for C6 at concrete inputs: the successful oracle writes the raw and
the coarse representation. -/
theorem C6_witness :
    goItem oracleOk "pm" 0 emptySt ("i.wav", "o1", "o2") =
      ⟨addFile (addFile emptySt.fs (savedPath "o2")) (savedPath "o1"),
       emptySt.trace ++ [Event.callF0 "i.wav" "pm",
                         Event.write (savedPath "o2") (Content.f0raw [100]),
                         Event.write (savedPath "o1") (Content.f0coarse (coarseF0 [100]))]⟩ :=
  C6_two_representations oracleOk "pm" 0 emptySt "i.wav" "o1" "o2" [100] (by decide) rfl

/-- C7: every work item built by `extract_f0` mirrors one enumerated relative
name under `1_16k_wavs`, `2a_f0` and `2b_f0nsf`; when the run proceeds, its trace
opens with all directory-creation events followed by the worker spawns, and the
parent directories of both output paths of every item are among the created
directories. -/
theorem C7_directory_mirroring : C7Prop := by
  refine ⟨?_, ?_, ?_⟩
  · intro td entries p hp
    rw [f0Paths, List.mem_filterMap] at hp
    obtain ⟨name, hn, hf⟩ := hp
    by_cases hsp : strIn "spec" (pjoin (pjoin td "1_16k_wavs") name) = true
    · rw [if_pos hsp] at hf
      cases hf
    · rw [if_neg hsp] at hf
      exact ⟨name, hn, (Option.some.inj hf).symm⟩
  · intro o fs entries td n mthd hg
    rw [extract_f0_guard_false o fs entries td n mthd hg]
    obtain ⟨ex, hex⟩ := extract_f0_workers_trace o mthd (f0Paths td entries) n (List.range n)
      ⟨(f0ParentDirs td entries).foldl (fun a d => mkdirFS (mkdirFS a d.1) d.2)
         (mkdirFS (mkdirFS fs (pjoin td "2a_f0")) (pjoin td "2b_f0nsf")),
       f0MkdirTrace td entries ++ f0SpawnTrace td entries n⟩
    refine ⟨ex, ?_⟩
    rw [hex]
  · intro td entries p hp
    have hdd : (dirname p.2.1, dirname p.2.2) ∈ f0ParentDirs td entries := by
      rw [f0ParentDirs, List.mem_dedup]
      exact List.mem_map_of_mem _ hp
    constructor
    · rw [f0MkdirTrace]
      apply List.mem_append_right
      rw [List.mem_flatMap]
      exact ⟨(dirname p.2.1, dirname p.2.2), hdd, by simp⟩
    · rw [f0MkdirTrace]
      apply List.mem_append_right
      rw [List.mem_flatMap]
      exact ⟨(dirname p.2.1, dirname p.2.2), hdd, by simp⟩

/-- Witness for C7 at concrete inputs: the one work item of the example dataset
mirrors its relative name, the run trace decomposes as claimed, and the parent
directory of each output path was created. -/
theorem C7_witness :
    (("t/1_16k_wavs/a.wav", "t/2a_f0/a.wav", "t/2b_f0nsf/a.wav") ∈ f0Paths "t" exEntries) ∧
    (∃ name, name ∈ enumNames exEntries ∧
       ("t/1_16k_wavs/a.wav", "t/2a_f0/a.wav", "t/2b_f0nsf/a.wav") =
         (pjoin (pjoin "t" "1_16k_wavs") name, pjoin (pjoin "t" "2a_f0") name,
          pjoin (pjoin "t" "2b_f0nsf") name)) ∧
    (∃ workerEvents,
       (extract_f0 oracleFail ⟨[], []⟩ exEntries "t" 1 "harvest").trace =
         f0MkdirTrace "t" exEntries ++ f0SpawnTrace "t" exEntries 1 ++ workerEvents) ∧
    Event.mkdir (dirname ("t/2a_f0/a.wav" : String)) ∈ f0MkdirTrace "t" exEntries := by
  refine ⟨by decide, ?_, ?_, ?_⟩
  · exact C7_directory_mirroring.1 "t" exEntries
      ("t/1_16k_wavs/a.wav", "t/2a_f0/a.wav", "t/2b_f0nsf/a.wav") (by decide)
  · exact C7_directory_mirroring.2.1 oracleFail ⟨[], []⟩ exEntries "t" 1 "harvest" (by decide)
  · exact (C7_directory_mirroring.2.2 "t" exEntries
      ("t/1_16k_wavs/a.wav", "t/2a_f0/a.wav", "t/2b_f0nsf/a.wav") (by decide)).1

/-- C8: a `.wav` file processed without an exception has its feature array saved
if and only if the array contains no NaN entry; with a NaN only a message is
printed and no file is written. -/
theorem C8_nan_guard : C8Prop := by
  intro o wd od dev st file feats hw hs ho
  constructor
  · intro hn
    exact processItem_ok_save o wd od dev st file feats hw hs ho hn
  · intro hn
    exact processItem_ok_nan o wd od dev st file feats hw hs ho hn

/-- Witness for C8 at concrete inputs: a NaN-free feature array is saved. -/
theorem C8_witness : C8Concl embedOk "wd" "od" 0 emptySt "a.wav" [some 0] :=
  C8_nan_guard embedOk "wd" "od" 0 emptySt "a.wav" [some 0] (by decide) (by decide) rfl

/-- C9: an unsupported embedder name makes `extract_feature` return the string
"Not supported embedder: ..." after having already created the `3_feature256`
directory and writing nothing; every subsequent call on that training directory
returns immediately without extracting anything. -/
theorem C9_unsupported_embedder : C9Prop := by
  intro o fs entries td nm g hg hnm
  constructor
  · exact extract_feature_unsupported o fs entries td nm g hg hnm
  · intro o2 entries2 nm2 g2
    apply extract_feature_guard_true
    simp [guardFeat, fsHasDir, mkdirFS]

/-- Witness for C9 at concrete inputs: `"bad_embedder"` fails non-atomically and
a following call with the supported `"hubert_base"` returns immediately. -/
theorem C9_witness :
    extract_feature embedFail ⟨[], []⟩ [] "t" "bad_embedder" 0 =
      ⟨mkdirFS ⟨[], []⟩ (pjoin "t" "3_feature256"),
       [Event.mkdir (pjoin "t" "3_feature256")],
       some ("Not supported embedder: " ++ "bad_embedder")⟩ ∧
    extract_feature embedOk (mkdirFS ⟨[], []⟩ (pjoin "t" "3_feature256")) [] "t"
        "hubert_base" 2 =
      ⟨mkdirFS ⟨[], []⟩ (pjoin "t" "3_feature256"), [], none⟩ := by
  constructor
  · exact (C9_unsupported_embedder embedFail ⟨[], []⟩ [] "t" "bad_embedder" 0 (by decide)
      (by decide)).1
  · exact (C9_unsupported_embedder embedFail ⟨[], []⟩ [] "t" "bad_embedder" 0 (by decide)
      (by decide)).2 embedOk [] "hubert_base" 2

/-- C10: with zero GPUs, a fresh `extract_feature` run creates the output
directory and loads the embedder, but spawns no worker, processes no file and
writes no feature output. -/
theorem C10_zero_gpu_noop : C10Prop := by
  intro o fs entries td nm hg hnm
  rw [extract_feature_supported o fs entries td nm 0 hg hnm]
  rfl

/-- Witness for C10 at concrete inputs. -/
theorem C10_witness :
    extract_feature embedOk ⟨[], []⟩ exEntries "t" "hubert_base" 0 =
      ⟨mkdirFS ⟨[], []⟩ (pjoin "t" "3_feature256"),
       [Event.mkdir (pjoin "t" "3_feature256"), Event.loadModel "hubert_base"], none⟩ :=
  C10_zero_gpu_noop embedOk ⟨[], []⟩ exEntries "t" "hubert_base" (by decide) (by decide)

end

end RVC
